import Mathlib

/-!
Shallow embedding of `src/downloading_script.py` (TikTok trending-video
ingestion script) and proofs about its specification claims.

Conventions of the embedding:
* Python `None` / falsy-or-missing values become `Option` values.
* Machine floats used for backoff arithmetic (`BACKOFF_BASE_SEC` etc.) are
  modelled as rationals; on the values involved (products of base values with
  powers of two, `min`, addition of a jitter) float arithmetic is exact, so
  the rational model is faithful.
* The external world (pages yielded by `api.trending.videos`, success of
  `t.info()`, of `t.bytes()`, of `_fetch_music_usage_count`, of
  `create_sessions`, and the sampled jitters) is supplied as explicit input
  data; the loop itself is the deterministic function of those inputs that
  the Python code is.
-/

namespace TikTokDL

/-! ### `_to_iso` (lines 38-42)

`_to_iso(ts)` does `int(ts)` then `datetime.fromtimestamp(..., tz=utc).isoformat()`
inside `try/except`, returning `None` on any failure.  We model the dynamic
argument by `TsVal` (integer, string, or `None`), the `int(...)` builtin by
`pyInt` (strip whitespace, optional sign, decimal digits; anything else
raises, i.e. yields `none`), and `fromtimestamp`'s admissible range by the
epoch-second range of years 1..9999 (outside it the Python call raises). -/

/-- A dynamic value passed as the `ts` argument of `_to_iso`. -/
inductive TsVal where
  | int (n : Int)
  | str (s : String)
  | null
deriving DecidableEq

/-- Decimal digits to a number; `none` if the list is empty or has a non-digit. -/
def digitsToNat : List Char → Option Nat
  | [] => none
  | cs => cs.foldl (fun acc c =>
      match acc with
      | none => none
      | some n => if c.isDigit then some (n * 10 + (c.toNat - 48)) else none)
      (some 0)

/-- Model of Python's `int(s)` on a string: strip surrounding whitespace,
optional sign, then decimal digits. -/
def parsePyIntStr (s : String) : Option Int :=
  let cs := (s.toList.dropWhile Char.isWhitespace).reverse.dropWhile Char.isWhitespace |>.reverse
  match cs with
  | '+' :: rest => (digitsToNat rest).map Int.ofNat
  | '-' :: rest => (digitsToNat rest).map (fun n => -(n : Int))
  | rest => (digitsToNat rest).map Int.ofNat

/-- Model of Python's `int(ts)` for the dynamic values of `TsVal`
(`int(None)` raises `TypeError`). -/
def pyInt : TsVal → Option Int
  | .int n => some n
  | .str s => parsePyIntStr s
  | .null => none

/-- Civil date from days since the Unix epoch (proleptic Gregorian calendar):
returns (year, month, day).  Floor division throughout. -/
def civilFromDays (z0 : Int) : Int × Nat × Nat :=
  let z := z0 + 719468
  let era : Int := Int.fdiv z 146097
  let doe : Nat := (z - era * 146097).toNat
  let yoe : Nat := (doe - doe / 1460 + doe / 36524 - doe / 146096) / 365
  let doy : Nat := doe - (365 * yoe + yoe / 4 - yoe / 100)
  let mp : Nat := (5 * doy + 2) / 153
  let d : Nat := doy - (153 * mp + 2) / 5 + 1
  let m : Nat := if mp < 10 then mp + 3 else mp - 9
  (era * 400 + yoe + (if m ≤ 2 then 1 else 0), m, d)

/-- Left-pad the decimal representation of `n` with zeros to width `w`. -/
def padNum (w n : Nat) : String :=
  let s := toString n
  String.mk (List.replicate (w - s.length) '0') ++ s

/-- `datetime.fromtimestamp(n, tz=timezone.utc).isoformat()` for an in-range
integer number of epoch seconds: `YYYY-MM-DDTHH:MM:SS+00:00`. -/
def isoOfEpoch (n : Int) : String :=
  let days := Int.fdiv n 86400
  let sod := (n - days * 86400).toNat
  let ymd := civilFromDays days
  let date := padNum 4 ymd.1.toNat ++ "-" ++ padNum 2 ymd.2.1 ++ "-" ++ padNum 2 ymd.2.2
  let tod := padNum 2 (sod / 3600) ++ ":" ++ padNum 2 (sod % 3600 / 60) ++ ":" ++
    padNum 2 (sod % 60)
  date ++ "T" ++ tod ++ "+00:00"

/-- Epoch seconds admissible to `datetime.fromtimestamp(_, tz=utc)`:
0001-01-01T00:00:00 .. 9999-12-31T23:59:59.  Outside, the call raises. -/
def tsInRange (n : Int) : Prop := -62135596800 ≤ n ∧ n ≤ 253402300799

instance (n : Int) : Decidable (tsInRange n) := by unfold tsInRange; infer_instance

/-- `_to_iso` (lines 38-42): ISO string on success, `None` when `int(...)` or
`fromtimestamp` raises. -/
def to_iso (ts : TsVal) : Option String :=
  match pyInt ts with
  | none => none
  | some n => if tsInRange n then some (isoOfEpoch n) else none

/-! ### `_extract_hashtags` (lines 44-59) -/

/-- One entry of `data["textExtra"]`: its `hashtagName` field, where `none`
models both a missing key and a falsy (empty) name. -/
def hashtagNameTags (textExtra : List (Option String)) : List String :=
  textExtra.filterMap fun nm =>
    match nm with
    | some s => if s = "" then none else some ("#" ++ s)
    | none => none

/-- Python `str.split()` with no argument: maximal runs of non-whitespace
characters, discarding the whitespace (char-level model). -/
def splitWsAux : List Char → List Char → List (List Char)
  | [], acc => if acc = [] then [] else [acc.reverse]
  | c :: cs, acc =>
      if c.isWhitespace then
        if acc = [] then splitWsAux cs [] else acc.reverse :: splitWsAux cs []
      else splitWsAux cs (c :: acc)

/-- `desc.split()` as a list of strings. -/
def pySplitWs (s : String) : List String :=
  (splitWsAux s.data []).map String.mk

/-- `w.startswith("#")`. -/
def startsWithHash (w : String) : Bool :=
  match w.data with
  | '#' :: _ => true
  | _ => false

/-- `t.lower()` (char-level; ASCII case mapping). -/
def lowerStr (s : String) : String := ⟨s.data.map Char.toLower⟩

/-- The caption fallback: whitespace-separated tokens of `desc` that start
with `#` (Python `desc.split()`). -/
def captionTags (desc : String) : List String :=
  (pySplitWs desc).filter startsWithHash

/-- The case-insensitive de-dup of lines 53-58: keep the first occurrence of
each lower-cased tag, in order, with its original casing. -/
def dedupCaseInsensitive (seen : List String) : List String → List String
  | [] => []
  | t :: ts =>
      if lowerStr t ∈ seen then dedupCaseInsensitive seen ts
      else t :: dedupCaseInsensitive (lowerStr t :: seen) ts

/-- `_extract_hashtags(data)` on the two fields it reads: `textExtra`
(structured annotations) and `desc` (caption). -/
def extract_hashtags (textExtra : List (Option String)) (desc : String) : List String :=
  let tags := hashtagNameTags textExtra
  let tags := if tags.isEmpty then captionTags desc else tags
  dedupCaseInsensitive [] tags

/-! ### `_popular_sound_heuristic` (lines 61-72) -/

/-- The dynamic `music_obj` argument: after `(music_obj or {})`, a dict (or
`None`, coerced to the empty dict) exposes an `original` field via `.get`;
a truthy non-dict value makes `.get` raise, landing in the `except` arm. -/
inductive MusicObj where
  | dict (original : Option Bool)
  | malformed
deriving DecidableEq

/-- `music_uses_count` as tested by `isinstance(music_uses_count, int)`:
`some n` iff the value is an integer. -/
abbrev UsesCount := Option Int

/-- `_popular_sound_heuristic(music_obj, music_uses_count)` with the module
constant `POPULAR_SOUND_MIN_USES` passed explicitly. -/
def popular_sound_heuristic (music_obj : MusicObj) (music_uses_count : UsesCount)
    (POPULAR_SOUND_MIN_USES : Int) : Bool × String :=
  match music_obj with
  | .malformed => (false, "error:AttributeError")
  | .dict original =>
      let popular := decide (original = some false) ||
        (match music_uses_count with
         | some n => decide (POPULAR_SOUND_MIN_USES ≤ n)
         | none => false)
      let reasons :=
        (if original = some false then ["non_original_sound"] else []) ++
        (match music_uses_count with
         | some n => ["videoCount=" ++ toString n]
         | none => [])
      (popular, if reasons.isEmpty then "no_reason" else String.intercalate "|" reasons)

/-! ### Configuration (lines 10-35)

All module-level configuration constants read from the environment that the
ingestion loop can see.  `MAX_CONSECUTIVE_ERRORS` (line 24) is among them. -/

/-- The configuration constants of lines 17-31. -/
structure Config where
  COUNT : Nat
  PAGE_SIZE : Nat
  MAX_LOOPS : Nat
  MAX_CONSECUTIVE_ERRORS : Nat
  RESET_SESSION_AFTER_ERRORS : Nat
  BACKOFF_BASE_SEC : Rat
  BACKOFF_MAX_SEC : Rat
  JITTER_SEC : Rat
  POPULAR_SOUND_MIN_USES : Int
deriving DecidableEq

/-- The constants actually referenced inside `trending_videos` (lines 120-285):
every `Config` field except `MAX_CONSECUTIVE_ERRORS`, which no statement of the
function mentions. -/
structure LoopCfg where
  COUNT : Nat
  PAGE_SIZE : Nat
  MAX_LOOPS : Nat
  RESET_SESSION_AFTER_ERRORS : Nat
  BACKOFF_BASE_SEC : Rat
  BACKOFF_MAX_SEC : Rat
  JITTER_SEC : Rat
  POPULAR_SOUND_MIN_USES : Int
deriving DecidableEq

/-- Projection of a `Config` onto the constants the loop reads. -/
def Config.loopCfg (c : Config) : LoopCfg :=
  ⟨c.COUNT, c.PAGE_SIZE, c.MAX_LOOPS, c.RESET_SESSION_AFTER_ERRORS,
   c.BACKOFF_BASE_SEC, c.BACKOFF_MAX_SEC, c.JITTER_SEC, c.POPULAR_SOUND_MIN_USES⟩

/-- The default values of the environment variables (lines 17-31);
`0.8 = 4/5` exactly in binary floating point. -/
def defaultConfig : Config := ⟨1000, 20, 999999, 6, 3, 2, 30, 4/5, 1000⟩

/-! ### The external world of one run

One `Item` collects the data and failure behavior the external API exhibits
for one video yielded by `api.trending.videos`: its raw `id` field, whether
`await t.info()` succeeds (the only awaited call inside the per-item `try`
that can raise before the download), the fields the enrichment reads
afterwards, the result of `_fetch_music_usage_count` (that helper catches
all its own exceptions and returns `None` on failure, lines 74-109), and
whether `await t.bytes()` plus the file write succeed. -/

/-- External behavior of one yielded video. -/
structure Item where
  id : Option String
  detail_ok : Bool
  textExtra : List (Option String)
  desc : String
  createTime : TsVal
  original : Option Bool
  music_id : Option String
  usage_lookup : Option Int
  media_ok : Bool
deriving DecidableEq

/-- External behavior of one page request: the `async for` either raises
(`err`) or yields a finite list of items. -/
inductive PageEv where
  | err
  | items (l : List Item)
deriving DecidableEq

/-- One line appended to both output sinks (lines 231-242); we keep the
fields relevant to the claims. -/
structure Rec where
  video_id : String
  create_time_iso : Option String
  hashtags : List String
  uses_popular_sound : Bool
  music_uses_count : Option Int
  popular_sound_reason : String
deriving DecidableEq

/-- The mutable state of one run of `trending_videos` (lines 137-141),
together with the observable log of its effects (records appended, backoff
sleeps performed, page sizes requested, sessions created) and the yet
unconsumed randomness/session-outcome streams. -/
structure LoopState where
  downloaded_count : Nat
  seen_ids : List String
  consecutive_errors : Nat
  loops : Nat
  music_usage_cache : List (Option String × Option Int)
  records : List Rec
  backoffs : List Rat
  requests : List Nat
  sessions_created : Nat
  jitters : List Rat
  sessions : List Bool
deriving DecidableEq

/-- Pop the next outcome of `await _new_session(api)`: `true` = the call
returns, `false` = it raises.  An exhausted stream defaults to success. -/
def takeSession (s : LoopState) : Bool × LoopState :=
  match s.sessions with
  | [] => (true, s)
  | b :: rest => (b, { s with sessions := rest })

/-- Pop the next `random.uniform(0, JITTER_SEC)` sample.  An exhausted
stream defaults to `0`. -/
def takeJitter (s : LoopState) : Rat × LoopState :=
  match s.jitters with
  | [] => (0, s)
  | j :: rest => (j, { s with jitters := rest })

/-- `music_id in music_usage_cache` plus the read: `some v` iff the key is
present, bound to `v` (which is itself an optional count). -/
def cacheLookup : List (Option String × Option Int) → Option String → Option (Option Int)
  | [], _ => none
  | (k, v) :: rest, key => if k = key then some v else cacheLookup rest key

/-! ### Per-item processing (lines 154-258) -/

/-- Outcome of one iteration of the `async for` body: `cont` = fall through
to the next item (`continue` or normal completion); `pageExc` = an exception
escaped the per-item handler (only possible when `_new_session` inside that
handler raises, line 256) and propagates to the page-level `except`. -/
inductive ItemStep where
  | cont (s : LoopState)
  | pageExc (s : LoopState)
deriving DecidableEq

/-- The state carried by an `ItemStep`. -/
def ItemStep.state : ItemStep → LoopState
  | .cont s => s
  | .pageExc s => s

/-- The per-item `except` handler (lines 251-258): increment
`consecutive_errors`; at `RESET_SESSION_AFTER_ERRORS`, recreate the session
and zero the counter — and if that recreation itself raises, the exception
escapes to the page level. -/
def itemError (cfg : LoopCfg) (s : LoopState) : ItemStep :=
  let s := { s with consecutive_errors := s.consecutive_errors + 1 }
  if cfg.RESET_SESSION_AFTER_ERRORS ≤ s.consecutive_errors then
    let p := takeSession s
    if p.1 then
      .cont { p.2 with consecutive_errors := 0, sessions_created := p.2.sessions_created + 1 }
    else .pageExc p.2
  else .cont s

/-- The body of the `async for` for one yielded video (lines 160-258), after
the target guard of line 157 (checked by the caller).  Faithful ordering:
the id is added to `seen_ids` (line 165) before `await t.info()` runs; the
music-usage cache is read/filled before the download attempt; a download
failure is caught by the inner handler of lines 215-217 which `continue`s
without touching `consecutive_errors`. -/
def doItem (cfg : LoopCfg) (s : LoopState) (it : Item) : ItemStep :=
  match it.id with
  | none => .cont s
  | some vid =>
    if vid ∈ s.seen_ids then .cont s
    else
      let s := { s with seen_ids := vid :: s.seen_ids }
      if it.detail_ok = false then itemError cfg s
      else
        let create_time_iso := to_iso it.createTime
        let hashtags := extract_hashtags it.textExtra it.desc
        let lk := cacheLookup s.music_usage_cache it.music_id
        let music_uses_count := match lk with
          | some v => v
          | none => it.usage_lookup
        let s := match lk with
          | some _ => s
          | none => { s with
              music_usage_cache := (it.music_id, it.usage_lookup) :: s.music_usage_cache }
        let pr := popular_sound_heuristic (.dict it.original) music_uses_count
          cfg.POPULAR_SOUND_MIN_USES
        if it.media_ok = false then .cont s
        else
          .cont { s with
            records := s.records ++
              [⟨vid, create_time_iso, hashtags, pr.1, music_uses_count, pr.2⟩],
            downloaded_count := s.downloaded_count + 1,
            consecutive_errors := 0 }

/-- Outcome of draining one page's items: the `async for` either completes
(possibly via the target-guard `break`) or an exception reaches the
page-level `except`. -/
inductive PageRun where
  | done (s : LoopState)
  | exc (s : LoopState)
deriving DecidableEq

/-- The state carried by a `PageRun`. -/
def PageRun.state : PageRun → LoopState
  | .done s => s
  | .exc s => s

/-- The `async for` over one page (lines 154-258): before each item, `break`
if the target is reached (line 157); otherwise run the item body. -/
def processItems (cfg : LoopCfg) : LoopState → List Item → PageRun
  | s, [] => .done s
  | s, it :: rest =>
    if cfg.COUNT ≤ s.downloaded_count then .done s
    else
      match doItem cfg s it with
      | .cont s' => processItems cfg s' rest
      | .pageExc s' => .exc s'

/-! ### Page-level failure handling and the outer loop (lines 146-278) -/

/-- The deterministic part of the backoff sleep (line 270):
`min(BACKOFF_MAX_SEC, BACKOFF_BASE_SEC * (2 ** min(consecutive_errors, 6)))`,
as a function of the error counter value read there. -/
def expoOf (cfg : LoopCfg) (ce : Nat) : Rat :=
  min cfg.BACKOFF_MAX_SEC (cfg.BACKOFF_BASE_SEC * 2 ^ min ce 6)

/-- The page-level `except` handler (lines 267-278): increment the counter,
sleep `expoOf` of the incremented counter plus jitter, then at
`RESET_SESSION_AFTER_ERRORS` recreate the session and zero the counter.
Returns `false` when that recreation raises: the `await _new_session(api)`
of line 277 runs inside the `except` block, so its own exception escapes
the `while` loop entirely. -/
def pageFail (cfg : LoopCfg) (s : LoopState) : Bool × LoopState :=
  let s := { s with consecutive_errors := s.consecutive_errors + 1 }
  let expo := expoOf cfg s.consecutive_errors
  let p := takeJitter s
  let s := { p.2 with backoffs := p.2.backoffs ++ [expo + p.1] }
  if cfg.RESET_SESSION_AFTER_ERRORS ≤ s.consecutive_errors then
    let q := takeSession s
    if q.1 then
      (true, { q.2 with consecutive_errors := 0, sessions_created := q.2.sessions_created + 1 })
    else (false, q.2)
  else (true, s)

/-- How one run ends: `finished` = the `while` condition became false, the
summary is printed and the process exits 0 (lines 280-285); `crashed` = an
exception escaped the loop; `outOfPages` = the supplied trace of page events
is too short to determine the rest of the run. -/
inductive RunResult where
  | finished
  | crashed
  | outOfPages
deriving DecidableEq

/-- The `while downloaded_count < COUNT and loops < MAX_LOOPS` loop (lines
146-278), consuming one `PageEv` per iteration.  An empty page raises the
synthetic `RuntimeError` of line 262, handled identically to a page-fetch
exception. -/
def runLoop (cfg : LoopCfg) : LoopState → List PageEv → RunResult × LoopState
  | s, pages =>
    if s.downloaded_count < cfg.COUNT ∧ s.loops < cfg.MAX_LOOPS then
      match pages with
      | [] => (.outOfPages, s)
      | ev :: rest =>
        let s := { s with
          loops := s.loops + 1,
          requests := s.requests ++ [min cfg.PAGE_SIZE (cfg.COUNT - s.downloaded_count)] }
        match ev with
        | .err =>
            let p := pageFail cfg s
            if p.1 then runLoop cfg p.2 rest else (.crashed, p.2)
        | .items l =>
            match processItems cfg s l with
            | .exc s' =>
                let p := pageFail cfg s'
                if p.1 then runLoop cfg p.2 rest else (.crashed, p.2)
            | .done s' =>
                if l.isEmpty then
                  let p := pageFail cfg s'
                  if p.1 then runLoop cfg p.2 rest else (.crashed, p.2)
                else runLoop cfg s' rest
    else (.finished, s)

/-- The state at the start of a run (lines 137-141) with the given
randomness and session-outcome streams. -/
def initState (jitters : List Rat) (sessions : List Bool) : LoopState :=
  ⟨0, [], 0, 0, [], [], [], [], 0, jitters, sessions⟩

/-- One run of `trending_videos` (lines 120-285): create the initial session
(line 144; if that raises the process crashes), then drive the loop. -/
def run (cfg : Config) (pages : List PageEv) (jitters : List Rat)
    (sessions : List Bool) : RunResult × LoopState :=
  let p := takeSession (initState jitters sessions)
  if p.1 then
    runLoop cfg.loopCfg { p.2 with sessions_created := p.2.sessions_created + 1 } pages
  else (.crashed, p.2)

/-! ### Concrete scenarios used in the claim analyses -/

/-- The default configuration with a capture target of 1. -/
def cfgTarget1 : Config := { defaultConfig with COUNT := 1 }

/-- An item whose `await t.info()` raises (item-level pipeline failure). -/
def itemDetailFails : Item := ⟨some "a", false, [], "", .null, none, none, none, true⟩

/-- An item whose detail fetch succeeds but whose `await t.bytes()` /
file write raises (download failure, lines 210-217). -/
def itemMediaFails : Item := ⟨some "a", true, [], "", .null, none, none, none, false⟩

/-- An item that processes successfully end to end. -/
def itemOkA : Item :=
  ⟨some "a", true, [], "hello #Tag", .int 1614831967, some true, some "m1", some 1500, true⟩

/-- A loop state whose dedup set already contains `"a"`. -/
def stateSeenA : LoopState := ⟨0, ["a"], 0, 0, [], [], [], [], 0, [], []⟩

/-- A loop state that has already captured one item. -/
def stateDone : LoopState := ⟨1, ["a"], 0, 0, [], [], [], [], 0, [], []⟩

/-! ### Invariants -/

/-- Dedup invariant over the persisted structured output: the appended
records carry pairwise distinct ids, and every appended id is in the dedup
set. -/
def RecordsInv (s : LoopState) : Prop :=
  (s.records.map Rec.video_id).Nodup ∧ ∀ r ∈ s.records, r.video_id ∈ s.seen_ids

/-- Progress invariant: the counter equals the number of appended records
and never exceeds the target. -/
def CountInv (cfg : LoopCfg) (s : LoopState) : Prop :=
  s.downloaded_count = s.records.length ∧ s.downloaded_count ≤ cfg.COUNT

/-- Every remaining `_new_session` outcome in the stream is a success. -/
def SessionsOk (s : LoopState) : Prop := ∀ b ∈ s.sessions, b = true

/-! ## Theorems -/

/-! ### Helper lemmas about the enrichment functions -/

theorem popular_iff (original : Option Bool) (uc : UsesCount) (th : Int) :
    (popular_sound_heuristic (.dict original) uc th).1 = true ↔
      original = some false ∨ ∃ n, uc = some n ∧ th ≤ n := by
  cases uc <;> simp [popular_sound_heuristic]

theorem dedupCI_sublist (l : List String) :
    ∀ seen, List.Sublist (dedupCaseInsensitive seen l) l := by
  induction l with
  | nil => intro seen; simp [dedupCaseInsensitive]
  | cons t ts ih =>
      intro seen
      unfold dedupCaseInsensitive
      split
      · exact List.Sublist.cons _ (ih _)
      · exact List.Sublist.cons₂ _ (ih _)

theorem dedupCI_nodup_facts (l : List String) : ∀ seen,
    (∀ x ∈ dedupCaseInsensitive seen l, lowerStr x ∉ seen) ∧
    ((dedupCaseInsensitive seen l).map lowerStr).Nodup := by
  induction l with
  | nil => intro seen; simp [dedupCaseInsensitive]
  | cons t ts ih =>
      intro seen
      unfold dedupCaseInsensitive
      split
      case isTrue h => exact ih seen
      case isFalse h =>
        obtain ⟨h1, h2⟩ := ih (lowerStr t :: seen)
        constructor
        · intro x hx
          rcases List.mem_cons.mp hx with rfl | hx
          · exact h
          · intro hs
            exact h1 x hx (List.mem_cons_of_mem _ hs)
        · simp only [List.map_cons, List.nodup_cons]
          refine ⟨fun hmem => ?_, h2⟩
          obtain ⟨y, hy, hyl⟩ := List.mem_map.mp hmem
          exact h1 y hy (by rw [hyl]; exact List.mem_cons_self _ _)

theorem dedupCI_complete (l : List String) : ∀ seen t, t ∈ l → lowerStr t ∉ seen →
    ∃ u ∈ dedupCaseInsensitive seen l, lowerStr u = lowerStr t := by
  induction l with
  | nil => simp
  | cons a ts ih =>
      intro seen t ht hts
      unfold dedupCaseInsensitive
      split
      case isTrue h =>
        rcases List.mem_cons.mp ht with rfl | ht
        · exact absurd h hts
        · exact ih seen t ht hts
      case isFalse h =>
        rcases List.mem_cons.mp ht with rfl | ht
        · exact ⟨t, List.mem_cons_self _ _, rfl⟩
        · by_cases hc : lowerStr t = lowerStr a
          · exact ⟨a, List.mem_cons_self _ _, hc.symm⟩
          · obtain ⟨u, hu, hul⟩ := ih (lowerStr a :: seen) t ht (by
              intro hmem
              rcases List.mem_cons.mp hmem with h' | h'
              · exact hc h'
              · exact hts h')
            exact ⟨u, List.mem_cons_of_mem _ hu, hul⟩

/-! ### C7, C8, C9 -/

/-- C7: `isPopular` is true iff the sound is explicitly flagged non-original
or the usage count is an integer at least the popularity threshold; the
three concrete cases of the spec evaluate as stated. -/
theorem C7_popular_sound :
    (∀ (original : Option Bool) (uc : UsesCount) (th : Int),
      ((popular_sound_heuristic (.dict original) uc th).1 = true ↔
        original = some false ∨ ∃ n, uc = some n ∧ th ≤ n))
    ∧ popular_sound_heuristic (.dict (some false)) none 1000 = (true, "non_original_sound")
    ∧ (popular_sound_heuristic (.dict (some true)) (some 1500) 1000).1 = true
    ∧ (∃ pre post, (popular_sound_heuristic (.dict (some true)) (some 1500) 1000).2 =
        pre ++ "videoCount=1500" ++ post)
    ∧ popular_sound_heuristic (.dict (some true)) (some 50) 1000 = (false, "videoCount=50") := by
  refine ⟨popular_iff, by decide, by decide, ⟨"", "", by decide⟩, by decide⟩

/-- C8: hashtag extraction uses the structured annotations when they yield
any tag and otherwise the `#`-prefixed caption tokens; the result is a
case-insensitively duplicate-free subsequence of that source list that still
covers every source tag up to casing; the concrete caption example yields
`["#Fun", "#NEW"]`. -/
theorem C8_hashtags :
    (∀ (textExtra : List (Option String)) (desc : String),
      List.Sublist (extract_hashtags textExtra desc)
          (if (hashtagNameTags textExtra).isEmpty then captionTags desc
           else hashtagNameTags textExtra) ∧
      ((extract_hashtags textExtra desc).map lowerStr).Nodup ∧
      (∀ t ∈ (if (hashtagNameTags textExtra).isEmpty then captionTags desc
              else hashtagNameTags textExtra),
        ∃ u ∈ extract_hashtags textExtra desc, lowerStr u = lowerStr t))
    ∧ extract_hashtags [] "check this #Fun #fun #NEW" = ["#Fun", "#NEW"] := by
  constructor
  · intro te d
    refine ⟨dedupCI_sublist _ _, (dedupCI_nodup_facts _ _).2, fun t ht => ?_⟩
    exact dedupCI_complete _ [] t ht (by simp)
  · rfl

/-- C9: the derived-field computations are total: `_to_iso` yields an
ISO-8601 UTC string (date `T` time `+00:00`) exactly when `int(ts)` parses
and the epoch value is representable, and `none` on every failure; the
popular-sound heuristic always returns a `(Bool, String)` pair, mapping the
raising input to `(false, diagnostic)` instead of propagating. -/
theorem C9_total_derivations :
    (∀ ts : TsVal, pyInt ts = none → to_iso ts = none)
    ∧ (∀ (ts : TsVal) (n : Int), pyInt ts = some n → ¬ tsInRange n → to_iso ts = none)
    ∧ (∀ (ts : TsVal) (n : Int), pyInt ts = some n → tsInRange n →
        to_iso ts = some (isoOfEpoch n))
    ∧ (∀ n : Int, ∃ date tod, isoOfEpoch n = date ++ "T" ++ tod ++ "+00:00")
    ∧ (∀ (uc : UsesCount) (th : Int),
        popular_sound_heuristic .malformed uc th = (false, "error:AttributeError")) := by
  refine ⟨?_, ?_, ?_, ?_, fun uc th => rfl⟩
  · intro ts h; unfold to_iso; rw [h]
  · intro ts n h hn
    unfold to_iso; rw [h]
    show (if tsInRange n then some (isoOfEpoch n) else none) = none
    rw [if_neg hn]
  · intro ts n h hn
    unfold to_iso; rw [h]
    show (if tsInRange n then some (isoOfEpoch n) else none) = some (isoOfEpoch n)
    rw [if_pos hn]
  · intro n; exact ⟨_, _, rfl⟩

/-- Witness for C9 at concrete inputs. -/
theorem C9_witness :
    to_iso .null = none ∧ to_iso (.int 0) = some (isoOfEpoch 0) :=
  ⟨C9_total_derivations.1 .null rfl,
   C9_total_derivations.2.2.1 (.int 0) 0 rfl (by decide)⟩

/-! ### Helper lemmas about the ingestion loop -/

theorem itemError_fields (cfg : LoopCfg) (s : LoopState) :
    (itemError cfg s).state.records = s.records ∧
    (itemError cfg s).state.seen_ids = s.seen_ids ∧
    (itemError cfg s).state.downloaded_count = s.downloaded_count := by
  obtain ⟨d, seen, ce, lp, cache, recs, bo, rq, sc, js, ss⟩ := s
  simp only [itemError, takeSession]
  split
  · cases ss with
    | nil => simp [ItemStep.state]
    | cons b rest => cases b <;> simp [ItemStep.state]
  · simp [ItemStep.state]

theorem pageFail_fields (cfg : LoopCfg) (s : LoopState) :
    (pageFail cfg s).2.records = s.records ∧
    (pageFail cfg s).2.seen_ids = s.seen_ids ∧
    (pageFail cfg s).2.downloaded_count = s.downloaded_count := by
  obtain ⟨d, seen, ce, lp, cache, recs, bo, rq, sc, js, ss⟩ := s
  simp only [pageFail, takeJitter, takeSession]
  cases js <;> cases ss <;> dsimp only <;> split <;>
    first
      | (rename_i b rest _; cases b <;> simp)
      | simp

theorem doItem_cases (cfg : LoopCfg) (s : LoopState) (it : Item) :
    (doItem cfg s it = .cont s ∧
      (it.id = none ∨ ∃ vid, it.id = some vid ∧ vid ∈ s.seen_ids))
    ∨ (∃ vid, it.id = some vid ∧ vid ∉ s.seen_ids ∧
        (doItem cfg s it).state.seen_ids = vid :: s.seen_ids ∧
        (doItem cfg s it).state.records = s.records ∧
        (doItem cfg s it).state.downloaded_count = s.downloaded_count)
    ∨ (∃ vid r, it.id = some vid ∧ vid ∉ s.seen_ids ∧ r.video_id = vid ∧
        (doItem cfg s it).state.seen_ids = vid :: s.seen_ids ∧
        (doItem cfg s it).state.records = s.records ++ [r] ∧
        (doItem cfg s it).state.downloaded_count = s.downloaded_count + 1 ∧
        (doItem cfg s it).state.consecutive_errors = 0) := by
  obtain ⟨iid, idet, itex, idesc, ict, iorig, imid, iuse, imed⟩ := it
  rcases iid with _ | vid
  · exact Or.inl ⟨by simp [doItem], Or.inl rfl⟩
  · by_cases hmem : vid ∈ s.seen_ids
    · exact Or.inl ⟨by simp [doItem, hmem], Or.inr ⟨vid, rfl, hmem⟩⟩
    · cases idet with
      | false =>
          have hstep : doItem cfg s ⟨some vid, false, itex, idesc, ict, iorig, imid, iuse, imed⟩ =
              itemError cfg { s with seen_ids := vid :: s.seen_ids } := by
            simp [doItem, hmem]
          have h2 := itemError_fields cfg { s with seen_ids := vid :: s.seen_ids }
          refine Or.inr (Or.inl ⟨vid, rfl, hmem, ?_, ?_, ?_⟩) <;> rw [hstep]
          · rw [h2.2.1]
          · rw [h2.1]
          · rw [h2.2.2]
      | true =>
          cases hlk : cacheLookup s.music_usage_cache imid with
          | none =>
              cases imed with
              | false =>
                  refine Or.inr (Or.inl ⟨vid, rfl, hmem, ?_, ?_, ?_⟩) <;>
                    simp [doItem, hmem, hlk, ItemStep.state]
              | true =>
                  refine Or.inr (Or.inr ⟨vid,
                    ⟨vid, to_iso ict, extract_hashtags itex idesc,
                      (popular_sound_heuristic (.dict iorig) iuse cfg.POPULAR_SOUND_MIN_USES).1,
                      iuse,
                      (popular_sound_heuristic (.dict iorig) iuse cfg.POPULAR_SOUND_MIN_USES).2⟩,
                    rfl, hmem, rfl, ?_, ?_, ?_, ?_⟩) <;>
                    simp [doItem, hmem, hlk, ItemStep.state]
          | some v =>
              cases imed with
              | false =>
                  refine Or.inr (Or.inl ⟨vid, rfl, hmem, ?_, ?_, ?_⟩) <;>
                    simp [doItem, hmem, hlk, ItemStep.state]
              | true =>
                  refine Or.inr (Or.inr ⟨vid,
                    ⟨vid, to_iso ict, extract_hashtags itex idesc,
                      (popular_sound_heuristic (.dict iorig) v cfg.POPULAR_SOUND_MIN_USES).1,
                      v,
                      (popular_sound_heuristic (.dict iorig) v cfg.POPULAR_SOUND_MIN_USES).2⟩,
                    rfl, hmem, rfl, ?_, ?_, ?_, ?_⟩) <;>
                    simp [doItem, hmem, hlk, ItemStep.state]

theorem takeSession_fields (s : LoopState) :
    (takeSession s).2.records = s.records ∧ (takeSession s).2.seen_ids = s.seen_ids ∧
    (takeSession s).2.downloaded_count = s.downloaded_count := by
  obtain ⟨d, seen, ce, lp, cache, recs, bo, rq, sc, js, ss⟩ := s
  cases ss <;> simp [takeSession]

theorem processItems_preserves (cfg : LoopCfg) (P : LoopState → Prop)
    (hdo : ∀ s it, P s → s.downloaded_count < cfg.COUNT → P (doItem cfg s it).state) :
    ∀ (l : List Item) (s : LoopState), P s → P (processItems cfg s l).state := by
  intro l
  induction l with
  | nil => intro s h; exact h
  | cons it rest ih =>
      intro s h
      unfold processItems
      split
      · exact h
      · rename_i hlt
        cases hd : doItem cfg s it with
        | cont s' =>
            apply ih
            have hs' : s' = (doItem cfg s it).state := by rw [hd]; rfl
            rw [hs']; exact hdo s it h (by omega)
        | pageExc s' =>
            show P s'
            have hs' : s' = (doItem cfg s it).state := by rw [hd]; rfl
            rw [hs']; exact hdo s it h (by omega)

theorem runLoop_preserves (cfg : LoopCfg) (P : LoopState → Prop)
    (hdo : ∀ s it, P s → s.downloaded_count < cfg.COUNT → P (doItem cfg s it).state)
    (hpf : ∀ s, P s → P (pageFail cfg s).2)
    (hreq : ∀ s, P s → P { s with
        loops := s.loops + 1,
        requests := s.requests ++ [min cfg.PAGE_SIZE (cfg.COUNT - s.downloaded_count)] }) :
    ∀ (pages : List PageEv) (s : LoopState), P s → P (runLoop cfg s pages).2 := by
  intro pages
  induction pages with
  | nil =>
      intro s h
      unfold runLoop
      split <;> exact h
  | cons ev rest ih =>
      intro s h
      unfold runLoop
      split
      case isFalse => exact h
      case isTrue hcond =>
        have h1 := hreq s h
        cases ev with
        | err =>
            dsimp only
            split
            · exact ih _ (hpf _ h1)
            · exact hpf _ h1
        | items l =>
            dsimp only
            have hP := processItems_preserves cfg P hdo l _ h1
            cases hp : processItems cfg { s with
        loops := s.loops + 1,
                requests := s.requests ++
                  [min cfg.PAGE_SIZE (cfg.COUNT - s.downloaded_count)] } l with
            | exc s' =>
                have hs' : P s' := by
                  have : s' = (processItems cfg { s with
        loops := s.loops + 1,
                      requests := s.requests ++
                        [min cfg.PAGE_SIZE (cfg.COUNT - s.downloaded_count)] } l).state := by
                    rw [hp]; rfl
                  rw [this]; exact hP
                dsimp only
                split
                · exact ih _ (hpf _ hs')
                · exact hpf _ hs'
            | done s' =>
                have hs' : P s' := by
                  have : s' = (processItems cfg { s with
        loops := s.loops + 1,
                      requests := s.requests ++
                        [min cfg.PAGE_SIZE (cfg.COUNT - s.downloaded_count)] } l).state := by
                    rw [hp]; rfl
                  rw [this]; exact hP
                dsimp only
                split
                · split
                  · exact ih _ (hpf _ hs')
                  · exact hpf _ hs'
                · exact ih _ hs'

theorem run_preserves (cfg : Config) (P : LoopState → Prop)
    (hdo : ∀ s it, P s → s.downloaded_count < cfg.loopCfg.COUNT →
      P (doItem cfg.loopCfg s it).state)
    (hpf : ∀ s, P s → P (pageFail cfg.loopCfg s).2)
    (hreq : ∀ s, P s → P { s with
        loops := s.loops + 1,
        requests := s.requests ++
          [min cfg.loopCfg.PAGE_SIZE (cfg.loopCfg.COUNT - s.downloaded_count)] })
    (htake : ∀ s, P s → P (takeSession s).2)
    (hsc : ∀ s, P s → P { s with sessions_created := s.sessions_created + 1 })
    (hinit : ∀ jitters sessions, P (initState jitters sessions)) :
    ∀ (pages : List PageEv) (jitters : List Rat) (sessions : List Bool),
      P (run cfg pages jitters sessions).2 := by
  intro pages jitters sessions
  unfold run
  have h0 : P (takeSession (initState jitters sessions)).2 :=
    htake _ (hinit jitters sessions)
  dsimp only
  split
  · exact runLoop_preserves cfg.loopCfg P hdo hpf hreq pages _ (hsc _ h0)
  · exact h0

theorem RecordsInv_doItem (cfg : LoopCfg) (s : LoopState) (it : Item)
    (h : RecordsInv s) : RecordsInv (doItem cfg s it).state := by
  rcases doItem_cases cfg s it with ⟨heq, _⟩ |
      ⟨vid, _, _, hseen, hrec, _⟩ | ⟨vid, r, _, hmem, hrid, hseen, hrec, _, _⟩
  · rw [heq]; exact h
  · constructor
    · rw [hrec]; exact h.1
    · intro r hr
      rw [hrec] at hr
      rw [hseen]
      exact List.mem_cons_of_mem _ (h.2 r hr)
  · constructor
    · rw [hrec, List.map_append, List.nodup_append]
      refine ⟨h.1, List.nodup_singleton _, ?_⟩
      intro a ha
      simp only [List.map_cons, List.map_nil, List.mem_singleton, hrid]
      rintro rfl
      obtain ⟨r', hr', hr'id⟩ := List.mem_map.mp ha
      exact hmem (hr'id ▸ h.2 r' hr')
    · intro r' hr'
      rw [hrec] at hr'
      rw [hseen]
      rcases List.mem_append.mp hr' with h' | h'
      · exact List.mem_cons_of_mem _ (h.2 r' h')
      · rw [List.mem_singleton.mp h', hrid]
        exact List.mem_cons_self _ _

theorem RecordsInv_pageFail (cfg : LoopCfg) (s : LoopState)
    (h : RecordsInv s) : RecordsInv (pageFail cfg s).2 := by
  obtain ⟨hr, hs, _⟩ := pageFail_fields cfg s
  constructor
  · rw [hr]; exact h.1
  · intro r hrm
    rw [hr] at hrm
    rw [hs]
    exact h.2 r hrm

theorem RecordsInv_takeSession (s : LoopState) (h : RecordsInv s) :
    RecordsInv (takeSession s).2 := by
  obtain ⟨hr, hs, _⟩ := takeSession_fields s
  constructor
  · rw [hr]; exact h.1
  · intro r hrm
    rw [hr] at hrm
    rw [hs]
    exact h.2 r hrm

theorem CountInv_doItem (cfg : LoopCfg) (s : LoopState) (it : Item)
    (h : CountInv cfg s) (hlt : s.downloaded_count < cfg.COUNT) :
    CountInv cfg (doItem cfg s it).state := by
  rcases doItem_cases cfg s it with ⟨heq, _⟩ |
      ⟨vid, _, _, _, hrec, hcount⟩ | ⟨vid, r, _, _, _, _, hrec, hcount, _⟩
  · rw [heq]; exact h
  · exact ⟨by rw [hcount, hrec]; exact h.1, by rw [hcount]; exact h.2⟩
  · constructor
    · rw [hcount, hrec, h.1, List.length_append, List.length_singleton]
    · rw [hcount]; omega

theorem CountInv_pageFail (cfg : LoopCfg) (s : LoopState)
    (h : CountInv cfg s) : CountInv cfg (pageFail cfg s).2 := by
  obtain ⟨hr, _, hd⟩ := pageFail_fields cfg s
  exact ⟨by rw [hd, hr]; exact h.1, by rw [hd]; exact h.2⟩

theorem CountInv_takeSession (cfg : LoopCfg) (s : LoopState) (h : CountInv cfg s) :
    CountInv cfg (takeSession s).2 := by
  obtain ⟨hr, _, hd⟩ := takeSession_fields s
  exact ⟨by rw [hd, hr]; exact h.1, by rw [hd]; exact h.2⟩

/-! ### C1, C2 -/

/-- C1: the dedup invariant — the records appended to the structured output
over any run carry pairwise distinct ids, and an item whose id is already in
`seen_ids` is skipped with no state change at all. -/
theorem C1_dedup :
    (∀ (cfg : Config) (pages : List PageEv) (jitters : List Rat) (sessions : List Bool),
      ((run cfg pages jitters sessions).2.records.map Rec.video_id).Nodup)
    ∧ (∀ (cfg : LoopCfg) (s : LoopState) (it : Item) (vid : String),
        it.id = some vid → vid ∈ s.seen_ids → doItem cfg s it = .cont s) := by
  constructor
  · intro cfg pages jitters sessions
    have main : RecordsInv (run cfg pages jitters sessions).2 := by
      refine run_preserves cfg RecordsInv
        (fun s it h _ => RecordsInv_doItem _ s it h)
        (RecordsInv_pageFail _) (fun s h => h) RecordsInv_takeSession
        (fun s h => h) (fun j ss => ?_) pages jitters sessions
      exact ⟨List.nodup_nil, by intro r hr; cases hr⟩
    exact main.1
  · intro cfg s it vid hid hmem
    obtain ⟨iid, idet, itex, idesc, ict, iorig, imid, iuse, imed⟩ := it
    simp only [Item.id] at hid
    subst hid
    simp [doItem, hmem]

/-- Witness for C1 at a concrete state whose dedup set already holds the
incoming id. -/
theorem C1_dedup_witness :
    ((run cfgTarget1 [.items [itemOkA]] [] [true]).2.records.map Rec.video_id).Nodup ∧
    doItem cfgTarget1.loopCfg stateSeenA itemOkA = .cont stateSeenA :=
  ⟨C1_dedup.1 cfgTarget1 [.items [itemOkA]] [] [true],
   C1_dedup.2 cfgTarget1.loopCfg stateSeenA itemOkA "a" rfl (by simp [stateSeenA])⟩

/-- C2: progress and target bound — the final counter equals the number of
records appended and never exceeds the target; each item step appends
either nothing or exactly one record with a matching `+1` of the counter;
once the target is reached the rest of a page is skipped and the loop
returns immediately. -/
theorem C2_progress :
    (∀ (cfg : Config) (pages : List PageEv) (jitters : List Rat) (sessions : List Bool),
      (run cfg pages jitters sessions).2.downloaded_count =
          (run cfg pages jitters sessions).2.records.length ∧
      (run cfg pages jitters sessions).2.downloaded_count ≤ cfg.COUNT)
    ∧ (∀ (cfg : LoopCfg) (s : LoopState) (it : Item),
        ((doItem cfg s it).state.downloaded_count = s.downloaded_count ∧
          (doItem cfg s it).state.records = s.records)
        ∨ (∃ r, (doItem cfg s it).state.downloaded_count = s.downloaded_count + 1 ∧
            (doItem cfg s it).state.records = s.records ++ [r]))
    ∧ (∀ (cfg : LoopCfg) (s : LoopState) (l : List Item),
        cfg.COUNT ≤ s.downloaded_count → processItems cfg s l = .done s)
    ∧ (∀ (cfg : LoopCfg) (s : LoopState) (pages : List PageEv),
        cfg.COUNT ≤ s.downloaded_count → runLoop cfg s pages = (.finished, s)) := by
  refine ⟨?_, ?_, ?_, ?_⟩
  · intro cfg pages jitters sessions
    have main : CountInv cfg.loopCfg (run cfg pages jitters sessions).2 := by
      refine run_preserves cfg (CountInv cfg.loopCfg)
        (fun s it h hlt => CountInv_doItem _ s it h hlt)
        (CountInv_pageFail _) (fun s h => h) (CountInv_takeSession _)
        (fun s h => h) (fun j ss => ⟨rfl, Nat.zero_le _⟩) pages jitters sessions
    exact main
  · intro cfg s it
    rcases doItem_cases cfg s it with ⟨heq, _⟩ |
        ⟨vid, _, _, _, hrec, hcount⟩ | ⟨vid, r, _, _, _, _, hrec, hcount, _⟩
    · rw [heq]; exact Or.inl ⟨rfl, rfl⟩
    · exact Or.inl ⟨hcount, hrec⟩
    · exact Or.inr ⟨r, hcount, hrec⟩
  · intro cfg s l h
    cases l with
    | nil => rfl
    | cons it rest => unfold processItems; rw [if_pos h]
  · intro cfg s pages h
    unfold runLoop
    rw [if_neg]
    rintro ⟨h1, -⟩
    omega

/-- Witness for C2's conditional parts at a run that exactly reaches its
target. -/
theorem C2_progress_witness :
    ((run cfgTarget1 [.items [itemOkA]] [] [true]).2.downloaded_count =
        (run cfgTarget1 [.items [itemOkA]] [] [true]).2.records.length) ∧
    processItems cfgTarget1.loopCfg stateDone [itemOkA] = .done stateDone ∧
    runLoop cfgTarget1.loopCfg stateDone [] = (.finished, stateDone) := by
  refine ⟨(C2_progress.1 cfgTarget1 [.items [itemOkA]] [] [true]).1, ?_, ?_⟩
  · exact C2_progress.2.2.1 cfgTarget1.loopCfg stateDone [itemOkA] (by decide)
  · exact C2_progress.2.2.2 cfgTarget1.loopCfg stateDone [] (by decide)

/-! ### C3, C4 -/

theorem itemError_below (cfg : LoopCfg) (s : LoopState)
    (h : s.consecutive_errors + 1 < cfg.RESET_SESSION_AFTER_ERRORS) :
    itemError cfg s = .cont { s with consecutive_errors := s.consecutive_errors + 1 } := by
  unfold itemError
  rw [if_neg (Nat.not_le.mpr h)]

theorem itemError_reset (cfg : LoopCfg) (s : LoopState)
    (h : cfg.RESET_SESSION_AFTER_ERRORS ≤ s.consecutive_errors + 1)
    (h1 : (takeSession { s with consecutive_errors := s.consecutive_errors + 1 }).1 = true) :
    itemError cfg s = .cont
      { (takeSession { s with consecutive_errors := s.consecutive_errors + 1 }).2 with
        consecutive_errors := 0,
        sessions_created :=
          (takeSession { s with
            consecutive_errors := s.consecutive_errors + 1 }).2.sessions_created + 1 } := by
  unfold itemError
  rw [if_pos h]
  rw [if_pos h1]

theorem doItem_detail_fail (cfg : LoopCfg) (s : LoopState) (it : Item) (vid : String)
    (hid : it.id = some vid) (hfresh : vid ∉ s.seen_ids) (hdet : it.detail_ok = false) :
    doItem cfg s it = itemError cfg { s with seen_ids := vid :: s.seen_ids } := by
  obtain ⟨iid, idet, itex, idesc, ict, iorig, imid, iuse, imed⟩ := it
  simp only [Item.id] at hid
  simp only [Item.detail_ok] at hdet
  subst hid; subst hdet
  simp [doItem, hfresh]

theorem doItem_media_fail (cfg : LoopCfg) (s : LoopState) (it : Item) (vid : String)
    (hid : it.id = some vid) (hfresh : vid ∉ s.seen_ids) (hdet : it.detail_ok = true)
    (hmed : it.media_ok = false) :
    ∃ s', doItem cfg s it = .cont s' ∧
      s'.consecutive_errors = s.consecutive_errors ∧
      s'.records = s.records ∧
      s'.downloaded_count = s.downloaded_count ∧
      s'.sessions_created = s.sessions_created ∧
      s'.sessions = s.sessions ∧
      s'.seen_ids = vid :: s.seen_ids := by
  obtain ⟨iid, idet, itex, idesc, ict, iorig, imid, iuse, imed⟩ := it
  simp only [Item.id] at hid
  simp only [Item.detail_ok] at hdet
  simp only [Item.media_ok] at hmed
  subst hid; subst hdet; subst hmed
  cases hlk : cacheLookup s.music_usage_cache imid with
  | none =>
      refine ⟨{ s with
          seen_ids := vid :: s.seen_ids,
          music_usage_cache := (imid, iuse) :: s.music_usage_cache },
        ?_, rfl, rfl, rfl, rfl, rfl, rfl⟩
      simp [doItem, hfresh, hlk]
  | some v =>
      refine ⟨{ s with seen_ids := vid :: s.seen_ids }, ?_, rfl, rfl, rfl, rfl, rfl, rfl⟩
      simp [doItem, hfresh, hlk]

theorem doItem_success (cfg : LoopCfg) (s : LoopState) (it : Item) (vid : String)
    (hid : it.id = some vid) (hfresh : vid ∉ s.seen_ids) (hdet : it.detail_ok = true)
    (hmed : it.media_ok = true) :
    ∃ s' r, doItem cfg s it = .cont s' ∧ r.video_id = vid ∧
      s'.records = s.records ++ [r] ∧
      s'.downloaded_count = s.downloaded_count + 1 ∧
      s'.consecutive_errors = 0 ∧
      s'.seen_ids = vid :: s.seen_ids ∧
      s'.sessions = s.sessions := by
  obtain ⟨iid, idet, itex, idesc, ict, iorig, imid, iuse, imed⟩ := it
  simp only [Item.id] at hid
  simp only [Item.detail_ok] at hdet
  simp only [Item.media_ok] at hmed
  subst hid; subst hdet; subst hmed
  cases hlk : cacheLookup s.music_usage_cache imid with
  | none =>
      refine ⟨{ s with
          seen_ids := vid :: s.seen_ids,
          music_usage_cache := (imid, iuse) :: s.music_usage_cache,
          records := s.records ++
            [⟨vid, to_iso ict, extract_hashtags itex idesc,
              (popular_sound_heuristic (.dict iorig) iuse cfg.POPULAR_SOUND_MIN_USES).1,
              iuse,
              (popular_sound_heuristic (.dict iorig) iuse cfg.POPULAR_SOUND_MIN_USES).2⟩],
          downloaded_count := s.downloaded_count + 1,
          consecutive_errors := 0 },
        ⟨vid, to_iso ict, extract_hashtags itex idesc,
          (popular_sound_heuristic (.dict iorig) iuse cfg.POPULAR_SOUND_MIN_USES).1,
          iuse,
          (popular_sound_heuristic (.dict iorig) iuse cfg.POPULAR_SOUND_MIN_USES).2⟩,
        ?_, rfl, rfl, rfl, rfl, rfl, rfl⟩
      simp [doItem, hfresh, hlk]
  | some v =>
      refine ⟨{ s with
          seen_ids := vid :: s.seen_ids,
          records := s.records ++
            [⟨vid, to_iso ict, extract_hashtags itex idesc,
              (popular_sound_heuristic (.dict iorig) v cfg.POPULAR_SOUND_MIN_USES).1,
              v,
              (popular_sound_heuristic (.dict iorig) v cfg.POPULAR_SOUND_MIN_USES).2⟩],
          downloaded_count := s.downloaded_count + 1,
          consecutive_errors := 0 },
        ⟨vid, to_iso ict, extract_hashtags itex idesc,
          (popular_sound_heuristic (.dict iorig) v cfg.POPULAR_SOUND_MIN_USES).1,
          v,
          (popular_sound_heuristic (.dict iorig) v cfg.POPULAR_SOUND_MIN_USES).2⟩,
        ?_, rfl, rfl, rfl, rfl, rfl, rfl⟩
      simp [doItem, hfresh, hlk]

theorem doItem_seen_recorded (cfg : LoopCfg) (s : LoopState) (it : Item) (vid : String)
    (hid : it.id = some vid) (hfresh : vid ∉ s.seen_ids) :
    vid ∈ (doItem cfg s it).state.seen_ids := by
  rcases doItem_cases cfg s it with ⟨heq, hskip⟩ |
      ⟨vid', hid', _, hseen, _, _⟩ | ⟨vid', r, hid', _, _, hseen, _, _, _⟩
  · rcases hskip with hnone | ⟨vid', hid', hmem⟩
    · rw [hid] at hnone; cases hnone
    · rw [hid] at hid'
      cases hid'
      exact absurd hmem hfresh
  · rw [hid] at hid'
    cases hid'
    rw [hseen]
    exact List.mem_cons_self _ _
  · rw [hid] at hid'
    cases hid'
    rw [hseen]
    exact List.mem_cons_self _ _

/-- C3 counterexample: a run whose single item fails at the detail fetch
records nothing, yet the item's id is already in the dedup set — contrary to
the claim that ids are added exactly upon successful capture. -/
theorem C3_counterexample_eager_seen :
    (run cfgTarget1 [.items [itemDetailFails]] [] [true]).2.seen_ids = ["a"] ∧
    (run cfgTarget1 [.items [itemDetailFails]] [] [true]).2.records = [] ∧
    (run cfgTarget1 [.items [itemDetailFails]] [] [true]).2.downloaded_count = 0 :=
  ⟨rfl, rfl, rfl⟩

/-- C3 (amended): the id of a fresh item is added to `seen_ids` as soon as
the item is examined — before the detail fetch and the download, hence also
when processing later fails (such an item is never retried); the counter
increment, the record append and the error-counter reset do happen exactly
on successful capture, and a detail-fetch failure changes neither the
records nor the counter. -/
theorem C3_amended_seen_on_examination :
    ∀ (cfg : LoopCfg) (s : LoopState) (it : Item) (vid : String),
      it.id = some vid → vid ∉ s.seen_ids →
      vid ∈ (doItem cfg s it).state.seen_ids ∧
      (it.detail_ok = true → it.media_ok = true →
        ∃ s' r, doItem cfg s it = .cont s' ∧ r.video_id = vid ∧
          s'.records = s.records ++ [r] ∧
          s'.downloaded_count = s.downloaded_count + 1 ∧
          s'.consecutive_errors = 0) ∧
      (it.detail_ok = false →
        (doItem cfg s it).state.records = s.records ∧
        (doItem cfg s it).state.downloaded_count = s.downloaded_count) := by
  intro cfg s it vid hid hfresh
  refine ⟨doItem_seen_recorded cfg s it vid hid hfresh, ?_, ?_⟩
  · intro hdet hmed
    obtain ⟨s', r, h1, h2, h3, h4, h5, -, -⟩ := doItem_success cfg s it vid hid hfresh hdet hmed
    exact ⟨s', r, h1, h2, h3, h4, h5⟩
  · intro hdet
    rw [doItem_detail_fail cfg s it vid hid hfresh hdet]
    have h2 := itemError_fields cfg { s with seen_ids := vid :: s.seen_ids }
    exact ⟨h2.1, h2.2.2⟩

/-- Witness for the amended C3 at concrete inputs. -/
theorem C3_amended_witness :
    "a" ∈ (doItem defaultConfig.loopCfg (initState [] []) itemOkA).state.seen_ids ∧
    (doItem defaultConfig.loopCfg (initState [] []) itemDetailFails).state.records =
      (initState [] []).records := by
  refine ⟨(C3_amended_seen_on_examination defaultConfig.loopCfg (initState [] [])
    itemOkA "a" rfl (by simp [initState])).1, ?_⟩
  exact ((C3_amended_seen_on_examination defaultConfig.loopCfg (initState [] [])
    itemDetailFails "a" rfl (by simp [initState])).2.2 rfl).1

/-- C4 counterexample: a run whose single item fails at the media-byte fetch
(download) leaves `consecutive_errors` at 0 and creates no extra session —
the claim requires every item-level failure, including media fetch, to
increment the counter by one. -/
theorem C4_counterexample_media_fail_not_counted :
    (run cfgTarget1 [.items [itemMediaFails]] [] [true]).2.consecutive_errors = 0 ∧
    (run cfgTarget1 [.items [itemMediaFails]] [] [true]).2.records = [] ∧
    (run cfgTarget1 [.items [itemMediaFails]] [] [true]).2.sessions_created = 1 :=
  ⟨rfl, rfl, rfl⟩

/-- C4 (amended): item-level failures that reach the per-item `except`
handler (e.g. the detail fetch) increment `consecutive_errors` by one; when
the incremented counter reaches `RESET_SESSION_AFTER_ERRORS` the session is
recreated and the counter zeroed; processing continues with the next item.
A media-byte fetch failure, however, is caught by the inner handler and
skips the item without touching the counter (and enrichment-lookup failures
are swallowed inside `_fetch_music_usage_count`, surfacing only as an
absent usage count). -/
theorem C4_amended_handler_vs_inner :
    (∀ (cfg : LoopCfg) (s : LoopState) (it : Item) (vid : String),
      it.id = some vid → vid ∉ s.seen_ids → it.detail_ok = false →
      doItem cfg s it = itemError cfg { s with seen_ids := vid :: s.seen_ids })
    ∧ (∀ (cfg : LoopCfg) (s : LoopState),
        s.consecutive_errors + 1 < cfg.RESET_SESSION_AFTER_ERRORS →
        itemError cfg s = .cont { s with consecutive_errors := s.consecutive_errors + 1 })
    ∧ (∀ (cfg : LoopCfg) (s : LoopState),
        cfg.RESET_SESSION_AFTER_ERRORS ≤ s.consecutive_errors + 1 →
        (takeSession { s with consecutive_errors := s.consecutive_errors + 1 }).1 = true →
        itemError cfg s = .cont
          { (takeSession { s with consecutive_errors := s.consecutive_errors + 1 }).2 with
            consecutive_errors := 0,
            sessions_created :=
              (takeSession { s with
                consecutive_errors := s.consecutive_errors + 1 }).2.sessions_created + 1 })
    ∧ (∀ (cfg : LoopCfg) (s : LoopState) (it : Item) (vid : String),
        it.id = some vid → vid ∉ s.seen_ids → it.detail_ok = true → it.media_ok = false →
        ∃ s', doItem cfg s it = .cont s' ∧
          s'.consecutive_errors = s.consecutive_errors ∧
          s'.records = s.records ∧ s'.sessions_created = s.sessions_created) := by
  refine ⟨doItem_detail_fail, itemError_below, itemError_reset, ?_⟩
  intro cfg s it vid hid hfresh hdet hmed
  obtain ⟨s', h1, h2, h3, -, h5, -, -⟩ := doItem_media_fail cfg s it vid hid hfresh hdet hmed
  exact ⟨s', h1, h2, h3, h5⟩

/-- Witness for the amended C4 at concrete inputs. -/
theorem C4_amended_witness :
    doItem defaultConfig.loopCfg (initState [] []) itemDetailFails =
        itemError defaultConfig.loopCfg { initState [] [] with seen_ids := ["a"] } ∧
    itemError defaultConfig.loopCfg (initState [] []) =
        .cont { initState [] [] with consecutive_errors := 1 } ∧
    (∃ s', doItem defaultConfig.loopCfg (initState [] []) itemMediaFails = .cont s' ∧
      s'.consecutive_errors = (initState [] []).consecutive_errors ∧
      s'.records = (initState [] []).records ∧
      s'.sessions_created = (initState [] []).sessions_created) := by
  refine ⟨?_, ?_, ?_⟩
  · exact C4_amended_handler_vs_inner.1 defaultConfig.loopCfg (initState [] [])
      itemDetailFails "a" rfl (by simp [initState]) rfl
  · exact C4_amended_handler_vs_inner.2.1 defaultConfig.loopCfg (initState [] [])
      (by decide)
  · exact C4_amended_handler_vs_inner.2.2.2 defaultConfig.loopCfg (initState [] [])
      itemMediaFails "a" rfl (by simp [initState]) rfl rfl

/-! ### C5, C6, C10 -/

theorem takeSession_ok (s : LoopState) (h : SessionsOk s) :
    (takeSession s).1 = true ∧ SessionsOk (takeSession s).2 := by
  obtain ⟨d, seen, ce, lp, cache, recs, bo, rq, sc, js, ss⟩ := s
  cases ss with
  | nil => exact ⟨rfl, h⟩
  | cons b rest =>
      constructor
      · exact h b (List.mem_cons_self _ _)
      · intro x hx
        exact h x (List.mem_cons_of_mem _ hx)

theorem itemError_ok (cfg : LoopCfg) (s : LoopState) (h : SessionsOk s) :
    ∃ s', itemError cfg s = .cont s' ∧ SessionsOk s' := by
  by_cases hc : cfg.RESET_SESSION_AFTER_ERRORS ≤ s.consecutive_errors + 1
  · have h1 : SessionsOk { s with consecutive_errors := s.consecutive_errors + 1 } := h
    obtain ⟨ht, h2⟩ := takeSession_ok _ h1
    rw [itemError_reset cfg s hc ht]
    exact ⟨_, rfl, h2⟩
  · rw [itemError_below cfg s (by omega)]
    exact ⟨_, rfl, h⟩

theorem doItem_ok (cfg : LoopCfg) (s : LoopState) (it : Item) (h : SessionsOk s) :
    ∃ s', doItem cfg s it = .cont s' ∧ SessionsOk s' := by
  obtain ⟨iid, idet, itex, idesc, ict, iorig, imid, iuse, imed⟩ := it
  rcases iid with _ | vid
  · exact ⟨s, by simp [doItem], h⟩
  · by_cases hmem : vid ∈ s.seen_ids
    · exact ⟨s, by simp [doItem, hmem], h⟩
    · cases idet with
      | false =>
          obtain ⟨s', hs', hok⟩ :=
            itemError_ok cfg { s with seen_ids := vid :: s.seen_ids } h
          refine ⟨s', ?_, hok⟩
          rw [doItem_detail_fail cfg s _ vid rfl hmem rfl]
          exact hs'
      | true =>
          cases imed with
          | false =>
              obtain ⟨s', h1, -, -, -, -, h5, -⟩ :=
                doItem_media_fail cfg s
                  ⟨some vid, true, itex, idesc, ict, iorig, imid, iuse, false⟩
                  vid rfl hmem rfl rfl
              exact ⟨s', h1, fun b hb => h b (h5 ▸ hb)⟩
          | true =>
              obtain ⟨s', r, h1, -, -, -, -, -, h6⟩ :=
                doItem_success cfg s
                  ⟨some vid, true, itex, idesc, ict, iorig, imid, iuse, true⟩
                  vid rfl hmem rfl rfl
              exact ⟨s', h1, fun b hb => h b (h6 ▸ hb)⟩

theorem processItems_ok (cfg : LoopCfg) (l : List Item) :
    ∀ s, SessionsOk s → ∃ s', processItems cfg s l = .done s' ∧ SessionsOk s' := by
  induction l with
  | nil => intro s h; exact ⟨s, rfl, h⟩
  | cons it rest ih =>
      intro s h
      unfold processItems
      split
      · exact ⟨s, rfl, h⟩
      · obtain ⟨s', hs', hok⟩ := doItem_ok cfg s it h
        rw [hs']
        exact ih s' hok

theorem pageFail_ok (cfg : LoopCfg) (s : LoopState) (h : SessionsOk s) :
    (pageFail cfg s).1 = true ∧ SessionsOk (pageFail cfg s).2 := by
  obtain ⟨d, seen, ce, lp, cache, recs, bo, rq, sc, js, ss⟩ := s
  cases ss with
  | nil =>
      simp only [pageFail, takeJitter, takeSession]
      cases js <;> dsimp only <;> split <;>
        exact ⟨rfl, fun b hb => absurd hb (List.not_mem_nil b)⟩
  | cons b rest =>
      have hb : b = true := h b (List.mem_cons_self _ _)
      subst hb
      have hrest : ∀ x ∈ rest, x = true := fun x hx => h x (List.mem_cons_of_mem _ hx)
      simp only [pageFail, takeJitter, takeSession]
      cases js <;> dsimp only <;> split <;>
        first
          | exact ⟨rfl, hrest⟩
          | exact ⟨rfl, fun x hx => h x hx⟩

theorem runLoop_no_crash (cfg : LoopCfg) (pages : List PageEv) :
    ∀ s, SessionsOk s → (runLoop cfg s pages).1 ≠ RunResult.crashed := by
  induction pages with
  | nil =>
      intro s h
      unfold runLoop
      split <;> simp
  | cons ev rest ih =>
      intro s h
      unfold runLoop
      split
      case isFalse _ => simp
      case isTrue hcond =>
        cases ev with
        | err =>
            dsimp only
            obtain ⟨hp1, hp2⟩ := pageFail_ok cfg
              { s with
                loops := s.loops + 1,
                requests := s.requests ++
                  [min cfg.PAGE_SIZE (cfg.COUNT - s.downloaded_count)] } h
            rw [if_pos hp1]
            exact ih _ hp2
        | items l =>
            dsimp only
            obtain ⟨s', hs', hok⟩ := processItems_ok cfg l
              { s with
                loops := s.loops + 1,
                requests := s.requests ++
                  [min cfg.PAGE_SIZE (cfg.COUNT - s.downloaded_count)] } h
            rw [hs']
            dsimp only
            split
            · obtain ⟨hp1, hp2⟩ := pageFail_ok cfg s' hok
              rw [if_pos hp1]
              exact ih _ hp2
            · exact ih _ hok

/-- C5 counterexample: three consecutive page failures reach the reset
threshold inside the page-level `except` handler; the session recreation
there itself raises, and the exception escapes the loop — the run crashes
rather than printing the summary and exiting 0. -/
theorem C5_counterexample_reset_escape :
    (run cfgTarget1 [.err, .err, .err] [0, 0, 0] [true, false]).1 =
      RunResult.crashed := rfl

/-- C5 (amended): as long as every session recreation succeeds, no item- or
page-level failure ever escapes the ingestion loop — the run either finishes
(printing the summary and exiting 0, at target or at the iteration ceiling)
or consumes the whole supplied page trace; but a failing recreation inside a
failure handler crashes the process. -/
theorem C5_amended_no_escape :
    ∀ (cfg : Config) (pages : List PageEv) (jitters : List Rat) (sessions : List Bool),
      (∀ b ∈ sessions, b = true) →
      ((run cfg pages jitters sessions).1 = RunResult.finished ∨
       (run cfg pages jitters sessions).1 = RunResult.outOfPages) := by
  intro cfg pages jitters sessions hss
  have h0 : SessionsOk (initState jitters sessions) := hss
  obtain ⟨ht, h2⟩ := takeSession_ok _ h0
  have hnc := runLoop_no_crash cfg.loopCfg pages
    { (takeSession (initState jitters sessions)).2 with
      sessions_created :=
        (takeSession (initState jitters sessions)).2.sessions_created + 1 } h2
  unfold run
  dsimp only
  rw [if_pos ht]
  cases hres : (runLoop cfg.loopCfg
      { (takeSession (initState jitters sessions)).2 with
        sessions_created :=
          (takeSession (initState jitters sessions)).2.sessions_created + 1 } pages).1 with
  | finished => exact Or.inl rfl
  | crashed => exact absurd hres hnc
  | outOfPages => exact Or.inr rfl

/-- Witness for the amended C5 on an empty trace. -/
theorem C5_amended_witness :
    (run defaultConfig [] [] []).1 = RunResult.finished ∨
    (run defaultConfig [] [] []).1 = RunResult.outOfPages :=
  C5_amended_no_escape defaultConfig [] [] [] (fun b hb => absurd hb (List.not_mem_nil b))

theorem takeJitter_bound (s : LoopState) (J : Rat) (h0 : 0 ≤ J)
    (h : ∀ j ∈ s.jitters, 0 ≤ j ∧ j ≤ J) :
    0 ≤ (takeJitter s).1 ∧ (takeJitter s).1 ≤ J := by
  obtain ⟨d, seen, ce, lp, cache, recs, bo, rq, sc, js, ss⟩ := s
  cases js with
  | nil => exact ⟨le_refl 0, h0⟩
  | cons j rest => exact h j (List.mem_cons_self _ _)

theorem pageFail_backoffs (cfg : LoopCfg) (s : LoopState) :
    (pageFail cfg s).2.backoffs = s.backoffs ++
      [expoOf cfg (s.consecutive_errors + 1) +
        (takeJitter { s with consecutive_errors := s.consecutive_errors + 1 }).1] := by
  obtain ⟨d, seen, ce, lp, cache, recs, bo, rq, sc, js, ss⟩ := s
  simp only [pageFail, takeJitter, takeSession]
  cases js <;> cases ss <;> dsimp only <;> split <;>
    first
      | (rename_i b rest _; cases b <;> simp)
      | simp

theorem expoOf_mono_and_capped (cfg : LoopCfg) (h0 : 0 ≤ cfg.BACKOFF_BASE_SEC) (ce : Nat) :
    expoOf cfg ce ≤ expoOf cfg (ce + 1) ∧ expoOf cfg ce ≤ cfg.BACKOFF_MAX_SEC := by
  constructor
  · unfold expoOf
    refine min_le_min le_rfl ?_
    refine mul_le_mul_of_nonneg_left ?_ h0
    refine pow_le_pow_right₀ ?_ (min_le_min (Nat.le_succ ce) le_rfl)
    norm_num
  · exact min_le_left _ _

theorem pageFail_below (cfg : LoopCfg) (s : LoopState)
    (h : s.consecutive_errors + 1 < cfg.RESET_SESSION_AFTER_ERRORS) :
    (pageFail cfg s).1 = true ∧
    (pageFail cfg s).2.consecutive_errors = s.consecutive_errors + 1 := by
  obtain ⟨d, seen, ce, lp, cache, recs, bo, rq, sc, js, ss⟩ := s
  simp only [pageFail, takeJitter, takeSession]
  cases js <;> dsimp only <;> rw [if_neg (Nat.not_le.mpr h)] <;> exact ⟨rfl, rfl⟩

theorem runLoop_empty_page_as_error (cfg : LoopCfg) (s : LoopState) (rest : List PageEv)
    (h1 : s.downloaded_count < cfg.COUNT) (h2 : s.loops < cfg.MAX_LOOPS) :
    runLoop cfg s (PageEv.items [] :: rest) = runLoop cfg s (PageEv.err :: rest) := by
  unfold runLoop
  rw [if_pos ⟨h1, h2⟩, if_pos ⟨h1, h2⟩]
  rfl

/-- C6 counterexample: with the default configuration
(`BACKOFF_BASE_SEC = 2`, `BACKOFF_MAX_SEC = 30`,
`RESET_SESSION_AFTER_ERRORS = 3`), four consecutive page failures with no
intervening success and zero jitter sleep 4, 8, 16 and then 4 seconds: the
session reset after the third failure zeroes the counter, so the fourth
sleep (4) is smaller than the third (16) — the sleeps are not
non-decreasing. -/
theorem C6_counterexample_reset_restarts_backoff :
    (run cfgTarget1 [.err, .err, .err, .err] [0, 0, 0, 0] [true, true, true]).2.backoffs =
      [expoOf cfgTarget1.loopCfg 1 + 0, expoOf cfgTarget1.loopCfg 2 + 0,
       expoOf cfgTarget1.loopCfg 3 + 0, expoOf cfgTarget1.loopCfg 1 + 0] ∧
    expoOf cfgTarget1.loopCfg 3 + 0 = 16 ∧
    expoOf cfgTarget1.loopCfg 1 + 0 = 4 ∧
    ¬ ((16 : Rat) ≤ 4) := by
  refine ⟨rfl, ?_, ?_, by norm_num⟩
  · norm_num [expoOf, cfgTarget1, defaultConfig, Config.loopCfg, min_def]
  · norm_num [expoOf, cfgTarget1, defaultConfig, Config.loopCfg, min_def]

/-- C6 (amended): an empty page is handled exactly like a raised page error;
every page failure sleeps
`min(BACKOFF_MAX_SEC, BACKOFF_BASE_SEC * 2 ** min(consecutiveErrorCount, 6))`
plus one jitter sample bounded by `[0, JITTER_SEC]`; that deterministic part
is non-decreasing in the counter and capped by `BACKOFF_MAX_SEC`, and the
counter does increase by 1 per failure while it stays below
`RESET_SESSION_AFTER_ERRORS` — but when it reaches the threshold the session
reset zeroes it, and subsequent sleeps restart from the base. -/
theorem C6_amended_backoff :
    (∀ (cfg : LoopCfg) (s : LoopState) (rest : List PageEv),
      s.downloaded_count < cfg.COUNT → s.loops < cfg.MAX_LOOPS →
      runLoop cfg s (PageEv.items [] :: rest) = runLoop cfg s (PageEv.err :: rest))
    ∧ (∀ (cfg : LoopCfg) (s : LoopState),
        (pageFail cfg s).2.backoffs = s.backoffs ++
          [expoOf cfg (s.consecutive_errors + 1) +
            (takeJitter { s with consecutive_errors := s.consecutive_errors + 1 }).1])
    ∧ (∀ (s : LoopState) (J : Rat), 0 ≤ J → (∀ j ∈ s.jitters, 0 ≤ j ∧ j ≤ J) →
        0 ≤ (takeJitter s).1 ∧ (takeJitter s).1 ≤ J)
    ∧ (∀ cfg : LoopCfg, 0 ≤ cfg.BACKOFF_BASE_SEC → ∀ ce : Nat,
        expoOf cfg ce ≤ expoOf cfg (ce + 1) ∧ expoOf cfg ce ≤ cfg.BACKOFF_MAX_SEC)
    ∧ (∀ (cfg : LoopCfg) (s : LoopState),
        s.consecutive_errors + 1 < cfg.RESET_SESSION_AFTER_ERRORS →
        (pageFail cfg s).1 = true ∧
        (pageFail cfg s).2.consecutive_errors = s.consecutive_errors + 1) :=
  ⟨runLoop_empty_page_as_error, pageFail_backoffs, takeJitter_bound,
   expoOf_mono_and_capped, pageFail_below⟩

/-- Witness for the amended C6 at concrete inputs. -/
theorem C6_amended_witness :
    runLoop cfgTarget1.loopCfg stateSeenA [PageEv.items []] =
        runLoop cfgTarget1.loopCfg stateSeenA [PageEv.err] ∧
    (expoOf defaultConfig.loopCfg 1 ≤ expoOf defaultConfig.loopCfg 2 ∧
      expoOf defaultConfig.loopCfg 1 ≤ defaultConfig.loopCfg.BACKOFF_MAX_SEC) ∧
    (pageFail defaultConfig.loopCfg stateSeenA).1 = true := by
  refine ⟨C6_amended_backoff.1 cfgTarget1.loopCfg stateSeenA [] (by decide) (by decide),
    C6_amended_backoff.2.2.2.1 defaultConfig.loopCfg
      (by norm_num [defaultConfig, Config.loopCfg]) 1,
    (C6_amended_backoff.2.2.2.2 defaultConfig.loopCfg stateSeenA (by decide)).1⟩

/-- C10: `MAX_CONSECUTIVE_ERRORS` is read into the configuration but never
consulted by the ingestion loop: two runs identical except for its value
have identical results and identical observable state (records, sleeps,
session creations, counters). -/
theorem C10_max_consecutive_errors_unused :
    ∀ (cfg : Config) (v : Nat) (pages : List PageEv) (jitters : List Rat)
      (sessions : List Bool),
      run { cfg with MAX_CONSECUTIVE_ERRORS := v } pages jitters sessions =
        run cfg pages jitters sessions := by
  intro cfg v pages jitters sessions
  rfl

/-- Witness for C8: the de-dup covers the lower-cased duplicate of the
concrete caption example. -/
theorem C8_hashtags_witness :
    ∃ u ∈ extract_hashtags [] "check this #Fun #fun #NEW", lowerStr u = lowerStr "#fun" := by
  have hsrc : (if (hashtagNameTags ([] : List (Option String))).isEmpty
      then captionTags "check this #Fun #fun #NEW"
      else hashtagNameTags ([] : List (Option String))) = ["#Fun", "#fun", "#NEW"] := rfl
  exact (C8_hashtags.1 [] "check this #Fun #fun #NEW").2.2 "#fun"
    (by rw [hsrc]; exact List.mem_cons_of_mem _ (List.mem_cons_self _ _))

end TikTokDL
